import Mathlib

/-!
A shallow embedding of the turnclient Turn API client
(pkg/turn/client.go, latest revision, together with the doWithRetry
refactoring of the same code) and proofs about its request pipeline:
input validation, request building, the retry loop, the response
decoder, log sanitization and client construction.

Strings are modelled as Lean strings (sequences of runes); Go byte
lengths are recovered with goLen, which sums UTF-8 sizes.
-/

namespace Turnclient

/-! ## Go string primitives -/

/-- Go len(s): the UTF-8 byte length of a string (Go strings are byte
slices; Lean strings are rune sequences, so we sum the UTF-8 size of
each rune). -/
def goLen (s : String) : Nat := (s.data.map Char.utf8Size).sum

/-- string(runes[:n]) for runes = []rune(s): the first n runes of s. -/
def takeRunes (n : Nat) (s : String) : String := String.mk (s.data.take n)

/-- Go strings.TrimRight(s, "/"): removes all trailing slash characters. -/
def trimRightSlash (s : String) : String :=
  String.mk (s.data.reverse.dropWhile (fun c => c == '/')).reverse

theorem one_le_utf8Size (c : Char) : 1 ≤ c.utf8Size := Char.utf8Size_pos c

theorem length_le_sum_of_one_le (l : List Nat) (h : ∀ x ∈ l, 1 ≤ x) :
    l.length ≤ l.sum := by
  induction l with
  | nil => simp
  | cons a t ih =>
    simp only [List.length_cons, List.sum_cons]
    have ha : 1 ≤ a := h a (List.mem_cons_self a t)
    have ht : t.length ≤ t.sum := ih fun x hx => h x (List.mem_cons_of_mem a hx)
    omega

/-- A string has at least as many UTF-8 bytes as runes. -/
theorem length_le_goLen (s : String) : s.data.length ≤ goLen s := by
  have h := length_le_sum_of_one_le (s.data.map Char.utf8Size) ?_
  · simpa [goLen] using h
  · intro x hx
    rcases List.mem_map.mp hx with ⟨c, _, rfl⟩
    exact one_le_utf8Size c

/-! ## Model of Go net/url.Parse (external standard library dependency)

Only the observations NewClient makes are modelled: whether parsing
fails, and the Scheme and Host fields of the result.  The model follows
the structure of Go url.Parse: reject ASCII control characters, split
the fragment at the first '#', extract the scheme (letters, then
letters/digits/'+'/'-'/'.', terminated by ':'; a leading ':' is the
"missing protocol scheme" error), split the query at the first '?', and
read the host from a leading "//" authority up to the next '/', with any
userinfo before the last '@' removed.  Host-character validation and the
relative-reference colon rule are not modelled; no claim depends on
them. -/

structure URL where
  scheme : String
  host : String
deriving DecidableEq, Repr

def isCTL (c : Char) : Bool := c.toNat < 32 || c.toNat == 127

/-- Scheme scan of url.getScheme: returns the index of the scheme
terminator ':' when a scheme is present, none when the URL has no
scheme, and an error for a leading ':'. -/
def getSchemeAux : List Char → Nat → Except String (Option Nat)
  | [], _ => .ok none
  | c :: rest, i =>
    if c.isAlpha then getSchemeAux rest (i + 1)
    else if c.isDigit || c == '+' || c == '-' || c == '.' then
      if i = 0 then .ok none else getSchemeAux rest (i + 1)
    else if c == ':' then
      if i = 0 then .error "missing protocol scheme" else .ok (some i)
    else .ok none

/-- The part of a character list before the first occurrence of c. -/
def beforeChar (c : Char) (cs : List Char) : List Char :=
  cs.takeWhile (fun d => d != c)

/-- Drop a userinfo component: keep the part after the last '@'. -/
def dropUserinfo (cs : List Char) : List Char :=
  (cs.reverse.takeWhile (fun d => d != '@')).reverse

def urlParse (rawURL : String) : Except String URL :=
  if rawURL.data.any isCTL then
    .error "invalid control character in URL"
  else
    let beforeFrag := beforeChar '#' rawURL.data
    match getSchemeAux beforeFrag 0 with
    | .error e => .error e
    | .ok r =>
      let p : String × List Char :=
        match r with
        | none => ("", beforeFrag)
        | some i =>
          (String.mk ((beforeFrag.take i).map Char.toLower), beforeFrag.drop (i + 1))
      let rest := beforeChar '?' p.2
      let host : List Char :=
        match rest with
        | '/' :: '/' :: auth => dropUserinfo (beforeChar '/' auth)
        | _ => []
      .ok { scheme := p.1, host := String.mk host }

/-! ## Package constants (client.go, latest revision) -/

def userAgent : String := "turnclient/1.0"

def maxResponseSize : Nat := 1024 * 1024

def retryAttempts : Nat := 4

def logMaxLength : Nat := 100

def errorMaxLength : Nat := 500

def asciiDEL : Nat := 127

/-! ## Data model (pkg/turn types, the subset the client code touches) -/

/-- Go time.Time, reduced to the instant it denotes; val = 0 models the
zero value, matching time.Time.IsZero. -/
structure Time where
  val : Nat
deriving DecidableEq, Repr

def Time.isZero (t : Time) : Bool := t.val == 0

/-- CheckRequest from pkg/turn types: URL, UpdatedAt, User with JSON
tags url, updated_at, user. -/
structure CheckRequest where
  url : String
  updatedAt : Time
  user : String
deriving DecidableEq, Repr

/-- Action from pkg/turn types (the fields the claims mention). -/
structure Action where
  kind : String
  critical : Bool
  reason : String
deriving DecidableEq, Repr

/-- PRState from pkg/turn types: the unblock_action map, modelled as an
association list from username to Action. -/
structure PRState where
  unblockAction : List (String × Action)
deriving DecidableEq, Repr

/-- CheckResponse from pkg/turn types (the subset the client touches:
Check reads result.PRState.UnblockAction). -/
structure CheckResponse where
  prState : PRState
deriving DecidableEq, Repr

/-- A *log.Logger value; the Option wrapping at use sites models nil. -/
structure Logger where
  id : Nat
deriving DecidableEq, Repr

/-- log.New(io.Discard, "", 0): the default discard logger. -/
def Logger.discard : Logger := ⟨0⟩

/-- Client from client.go: configuration state.  The http.Client field
carries no modelled state (its timeout does not affect any claim). -/
structure Client where
  baseURL : String
  authToken : String
  noCache : Bool
  logger : Option Logger
deriving DecidableEq, Repr

/-! ## JSON values

The JSON abstract syntax produced by encoding/json for the request
body.  Go marshals time.Time as an RFC3339 string; that rendering is
injective on instants, so it is kept as its own leaf constructor. -/

inductive Json where
  | str (s : String) : Json
  | timeStr (t : Time) : Json
  | bool (b : Bool) : Json
  | obj (fields : List (String × Json)) : Json

/-- json.Marshal of CheckRequest: field order follows the struct. -/
def encodeCheckRequest (r : CheckRequest) : Json :=
  .obj [("url", .str r.url), ("updated_at", .timeStr r.updatedAt), ("user", .str r.user)]

/-- json.Unmarshal of the CheckRequest wire object back into the
struct: reads the url, updated_at and user fields. -/
def decodeCheckRequest : Json → Option CheckRequest
  | .obj [("url", .str u), ("updated_at", .timeStr t), ("user", .str us)] =>
    some { url := u, updatedAt := t, user := us }
  | _ => none

/-! ## Client construction and setters (client.go latest revision) -/

def NewClient (baseURL : String) : Except String Client :=
  if baseURL == "" then .error "base URL cannot be empty"
  else
    match urlParse baseURL with
    | .error e => .error ("invalid base URL: " ++ e)
    | .ok u =>
      if u.scheme != "http" && u.scheme != "https" then
        .error "base URL must use http or https"
      else
        .ok { baseURL := trimRightSlash baseURL
              authToken := ""
              noCache := false
              logger := some Logger.discard }

def Client.SetAuthToken (c : Client) (token : String) : Client :=
  { c with authToken := token }

def Client.SetLogger (c : Client) (logger : Option Logger) : Client :=
  match logger with
  | some l => { c with logger := some l }
  | none => c

def Client.SetNoCache (c : Client) (noCache : Bool) : Client :=
  { c with noCache := noCache }

/-- One setter call on a client (the mutations client.go exposes). -/
inductive ClientOp where
  | setAuthToken (token : String)
  | setLogger (logger : Option Logger)
  | setNoCache (noCache : Bool)

def applyOp (c : Client) : ClientOp → Client
  | .setAuthToken t => c.SetAuthToken t
  | .setLogger l => c.SetLogger l
  | .setNoCache b => c.SetNoCache b

/-! ## sanitizeForLog (client.go latest revision, lines 721-758) -/

/-- The per-rune step of sanitizeForLog's single pass: the switch on r
with cases for newline, carriage return and tab, and the default case
keeping r exactly when r is at least space and not DEL. -/
def escapeRune (r : Char) : String :=
  if r == '\n' then "\\n"
  else if r == '\r' then "\\r"
  else if r == '\t' then "\\t"
  else if 32 ≤ r.toNat ∧ r.toNat ≠ asciiDEL then String.mk [r]
  else ""

def sanitizeForLog (s : String) : String :=
  let p : String × Bool :=
    if goLen s > logMaxLength then
      if s.data.length > logMaxLength then (takeRunes logMaxLength s, true)
      else (s, false)
    else (s, false)
  let out := p.1.data.foldl (fun acc r => acc ++ escapeRune r) ""
  if p.2 then out ++ "..." else out

/-! ## The error-body excerpt of Check's response decoder
(client.go latest revision, lines 606-617) -/

def truncateErrorBody (body : String) : String :=
  if goLen body > errorMaxLength then
    if body.data.length > errorMaxLength then
      takeRunes errorMaxLength body ++ "... (truncated)"
    else body
  else body

/-! ## HTTP requests and the network oracle -/

/-- The observable parts of the outbound http.Request: method, URL and
the headers the client sets (a none field models an absent header). -/
structure HttpRequest where
  method : String
  url : String
  contentType : Option String
  userAgentHeader : Option String
  accept : Option String
  authorization : Option String
  cacheControl : Option String
  body : Option Json

/-- What one httpClient.Do call yields: a network-level transport error
or a response with a status code and a body. -/
inductive Outcome where
  | netErr (msg : String)
  | resp (status : Nat) (body : String)

/-- The retry condition of the attempt closure in Check, CurrentUser
and doWithRetry: a transport error is retried, and a response is
retried exactly when its status is at least 500 or equals 429
(http.StatusTooManyRequests). -/
def Outcome.retryable : Outcome → Bool
  | .netErr _ => true
  | .resp status _ => decide (500 ≤ status) || status == 429

/-! ## The retry.Do loop (external github.com/codeGROOVE-dev/retry
dependency)

Modelled from the spec: the retry library itself is not part of this
repository; the spec fixes its contract as up to `attempts` total calls
of the attempt function, stopping at the first success, an
exponential-backoff delay starting at `delay`, capped at `maxDelay`,
plus up to `maxJitter` of random jitter, with the caller context
observed between attempts so that it bounds the entire sequence.  The
jitter drawn before retry n is supplied by the oracle `jit`, and
`ctx n = false` means the context is observed cancelled before the
sleep that follows attempt n. -/

structure RetryPolicy where
  attempts : Nat
  delay : Nat
  maxDelay : Nat
  maxJitter : Nat
deriving DecidableEq, Repr

/-- retry.BackOffDelay combined with retry.MaxDelay: delay doubles each
retry and is capped. -/
def backOffDelay (p : RetryPolicy) (n : Nat) : Nat :=
  min (p.delay * 2 ^ n) p.maxDelay

inductive RetryResult where
  | ok (status : Nat) (body : String)
  | exhausted (last : Outcome)
  | cancelled

/-- The loop of retry.Do: n is the index of the attempt about to run,
fuel the number of attempts still allowed.  Returns the result and the
list of sleeps performed between attempts. -/
def retryLoop (p : RetryPolicy) (ctx : Nat → Bool) (jit : Nat → Nat)
    (net : Nat → Outcome) : Nat → Nat → RetryResult × List Nat
  | _, 0 => (.cancelled, [])
  | n, fuel + 1 =>
    let o := net n
    if o.retryable then
      if fuel = 0 then (.exhausted o, [])
      else if ctx n then
        let rest := retryLoop p ctx jit net (n + 1) fuel
        (rest.1, (backOffDelay p n + jit n) :: rest.2)
      else (.cancelled, [])
    else
      match o with
      | .resp s b => (.ok s b, [])
      | .netErr m => (.exhausted (.netErr m), [])

/-- The retry options Check and CurrentUser pass to retry.Do:
Attempts(retryAttempts), Delay(100ms), MaxDelay(5s),
DelayType(BackOffDelay), MaxJitter(300ms), in milliseconds. -/
def clientRetryPolicy : RetryPolicy :=
  { attempts := retryAttempts, delay := 100, maxDelay := 5000, maxJitter := 300 }

/-- doWithRetry: performs an HTTP request with exponential backoff
retry, using the client retry policy. -/
def doWithRetry (ctx : Nat → Bool) (jit : Nat → Nat) (net : Nat → Outcome) :
    RetryResult × List Nat :=
  retryLoop clientRetryPolicy ctx jit net 0 clientRetryPolicy.attempts

/-! ## Check and CurrentUser -/

inductive CheckError where
  | invalidArgument (msg : String)
  | sendRequest (r : RetryResult)
  | remoteRejected (status : Nat) (excerpt : String)
  | malformedResponse

/-- The observable side effects of one Check or CurrentUser call:
whether a request object was built, the physical sends (one per
attempt, all of the single built request), and the inter-attempt
sleeps. -/
structure CallTrace where
  built : Option HttpRequest
  sent : List HttpRequest
  sleeps : List Nat

def emptyTrace : CallTrace := { built := none, sent := [], sleeps := [] }

/-- The trace of a call that built req and ran the retry loop: one
physical send of req per attempt (sleeps separate consecutive
attempts, so there is one more send than sleeps). -/
def mkTrace (req : HttpRequest) (sleeps : List Nat) : CallTrace :=
  { built := some req
    sent := List.replicate (sleeps.length + 1) req
    sleeps := sleeps }

/-- The http.Request Check builds before entering the retry loop. -/
def Client.buildCheckRequest (c : Client) (req : CheckRequest) : HttpRequest :=
  { method := "POST"
    url := c.baseURL ++ "/v1/validate"
    contentType := some "application/json"
    userAgentHeader := some userAgent
    accept := some "application/json"
    authorization := if c.authToken != "" then some ("Bearer " ++ c.authToken) else none
    cacheControl := if c.noCache then some "no-cache" else none
    body := some (encodeCheckRequest req) }

/-- The response decoder of Check (client.go latest revision, lines
599-625): a non-200 status fails with the status code and the truncated
error body; a 200 body is unmarshalled (abstracted by parse), and an
undecodable body is a malformed-response failure. -/
def checkDecode (parse : String → Option CheckResponse) (status : Nat) (body : String) :
    Except CheckError CheckResponse :=
  if status != 200 then
    .error (.remoteRejected status (truncateErrorBody body))
  else
    match parse body with
    | some result => .ok result
    | none => .error .malformedResponse

/-- What Check does with the retry loop result: a transport failure is
wrapped as a send-request error, a response goes to the decoder. -/
def checkFinish (parse : String → Option CheckResponse) :
    RetryResult → Except CheckError CheckResponse
  | .ok status body => checkDecode parse status body
  | e => .error (.sendRequest e)

/-- Client.Check (client.go latest revision, lines 502-626).  The
unmarshalling of a 200 body is abstracted by the oracle `parse`; the
1MiB read cap never truncates the bodies any claim involves and is not
modelled at byte granularity. -/
def Client.Check (c : Client) (ctx : Nat → Bool) (jit : Nat → Nat)
    (net : Nat → Outcome) (parse : String → Option CheckResponse)
    (prURL user : String) (updatedAt : Time) :
    Except CheckError CheckResponse × CallTrace :=
  if prURL == "" then (.error (.invalidArgument "PR URL cannot be empty"), emptyTrace)
  else if user == "" then (.error (.invalidArgument "user cannot be empty"), emptyTrace)
  else if updatedAt.isZero then
    (.error (.invalidArgument "updated_at timestamp cannot be zero"), emptyTrace)
  else
    let httpReq := c.buildCheckRequest { url := prURL, updatedAt := updatedAt, user := user }
    let r := doWithRetry ctx jit net
    (checkFinish parse r.1, mkTrace httpReq r.2)

inductive CurrentUserError where
  | noToken
  | sendRequest (r : RetryResult)
  | remoteRejected (status : Nat) (bodyText : String)
  | decodeFailed
  | emptyUsername

/-- The http.Request CurrentUser builds. -/
def Client.buildUserRequest (c : Client) : HttpRequest :=
  { method := "GET"
    url := "https://api.github.com/user"
    contentType := none
    userAgentHeader := some userAgent
    accept := some "application/vnd.github.v3+json"
    authorization := some ("Bearer " ++ c.authToken)
    cacheControl := none
    body := none }

/-- The response handling of CurrentUser (client.go latest revision,
lines 698-717): a non-200 status fails with the status code and the
body text as read, without the 500-character excerpt truncation Check
applies; a 200 body has its login field decoded (abstracted by
parseLogin), and an empty login is rejected. -/
def userDecode (parseLogin : String → Option String) (status : Nat) (body : String) :
    Except CurrentUserError String :=
  if status != 200 then
    .error (.remoteRejected status body)
  else
    match parseLogin body with
    | none => .error .decodeFailed
    | some login =>
      if login == "" then .error .emptyUsername
      else .ok login

/-- What CurrentUser does with the retry loop result. -/
def userFinish (parseLogin : String → Option String) :
    RetryResult → Except CurrentUserError String
  | .ok status body => userDecode parseLogin status body
  | e => .error (.sendRequest e)

/-- Client.CurrentUser (client.go latest revision, lines 629-718). -/
def Client.CurrentUser (c : Client) (ctx : Nat → Bool) (jit : Nat → Nat)
    (net : Nat → Outcome) (parseLogin : String → Option String) :
    Except CurrentUserError String × CallTrace :=
  if c.authToken == "" then (.error .noToken, emptyTrace)
  else
    let httpReq := c.buildUserRequest
    let r := doWithRetry ctx jit net
    (userFinish parseLogin r.1, mkTrace httpReq r.2)

/-- When the first outcome is not retryable the loop stops at once. -/
theorem retryLoop_not_retryable (p : RetryPolicy) (ctx : Nat → Bool) (jit : Nat → Nat)
    (net : Nat → Outcome) (n f : Nat) (h : (net n).retryable = false) :
    retryLoop p ctx jit net n (f + 1) =
      ((match net n with
        | .resp s b => RetryResult.ok s b
        | .netErr m => RetryResult.exhausted (.netErr m)), []) := by
  rcases ho : net n with m | ⟨s, b⟩
  · simp [ho, Outcome.retryable] at h
  · rw [ho] at h
    simp [Outcome.retryable] at h
    simp [retryLoop, ho, Outcome.retryable, h]

/-- When the first outcome is retryable, budget remains and the context
is alive, the loop sleeps and recurses. -/
theorem retryLoop_retryable_step (p : RetryPolicy) (ctx : Nat → Bool) (jit : Nat → Nat)
    (net : Nat → Outcome) (n f : Nat) (h : (net n).retryable = true) (hf : f ≠ 0)
    (hc : ctx n = true) :
    retryLoop p ctx jit net n (f + 1) =
      ((retryLoop p ctx jit net (n + 1) f).1,
        (backOffDelay p n + jit n) :: (retryLoop p ctx jit net (n + 1) f).2) := by
  simp [retryLoop, h, hf, hc]

/-- Retryable outcome on the last allowed attempt: exhausted. -/
theorem retryLoop_exhaust (p : RetryPolicy) (ctx : Nat → Bool) (jit : Nat → Nat)
    (net : Nat → Outcome) (n : Nat) (h : (net n).retryable = true) :
    retryLoop p ctx jit net n 1 = (.exhausted (net n), []) := by
  simp [retryLoop, h]

/-- Retryable outcome with a cancelled context: the loop stops. -/
theorem retryLoop_cancel (p : RetryPolicy) (ctx : Nat → Bool) (jit : Nat → Nat)
    (net : Nat → Outcome) (n f : Nat) (h : (net n).retryable = true) (hf : f ≠ 0)
    (hc : ctx n = false) :
    retryLoop p ctx jit net n (f + 1) = (.cancelled, []) := by
  simp [retryLoop, h, hf, hc]

theorem retryLoop_sleeps_length (p : RetryPolicy) (ctx : Nat → Bool) (jit : Nat → Nat)
    (net : Nat → Outcome) :
    ∀ f n, (retryLoop p ctx jit net n f).2.length ≤ f - 1 := by
  intro f
  induction f with
  | zero => intro n; simp [retryLoop]
  | succ f ih =>
    intro n
    cases hr : (net n).retryable
    · rw [retryLoop_not_retryable p ctx jit net n f hr]
      simp
    · by_cases hf : f = 0
      · subst hf
        rw [retryLoop_exhaust p ctx jit net n hr]
        simp
      · cases hc : ctx n
        · rw [retryLoop_cancel p ctx jit net n f hr hf hc]
          simp
        · rw [retryLoop_retryable_step p ctx jit net n f hr hf hc]
          have := ih (n + 1)
          simp only [List.length_cons]
          omega

theorem retryLoop_sleeps_retryable (p : RetryPolicy) (ctx : Nat → Bool) (jit : Nat → Nat)
    (net : Nat → Outcome) :
    ∀ f n i, i < (retryLoop p ctx jit net n f).2.length → (net (n + i)).retryable = true := by
  intro f
  induction f with
  | zero => intro n i h; simp [retryLoop] at h
  | succ f ih =>
    intro n i h
    cases hr : (net n).retryable
    · rw [retryLoop_not_retryable p ctx jit net n f hr] at h
      simp at h
    · by_cases hf : f = 0
      · subst hf; rw [retryLoop_exhaust p ctx jit net n hr] at h; simp at h
      · cases hc : ctx n
        · rw [retryLoop_cancel p ctx jit net n f hr hf hc] at h; simp at h
        · rw [retryLoop_retryable_step p ctx jit net n f hr hf hc] at h
          simp only [List.length_cons] at h
          match i with
          | 0 => simpa using hr
          | j + 1 =>
            have hj : j < (retryLoop p ctx jit net (n + 1) f).2.length := by omega
            have := ih (n + 1) j hj
            have heq : n + 1 + j = n + (j + 1) := by omega
            rwa [heq] at this

theorem retryLoop_sleeps_ctx (p : RetryPolicy) (ctx : Nat → Bool) (jit : Nat → Nat)
    (net : Nat → Outcome) :
    ∀ f n i, i < (retryLoop p ctx jit net n f).2.length → ctx (n + i) = true := by
  intro f
  induction f with
  | zero => intro n i h; simp [retryLoop] at h
  | succ f ih =>
    intro n i h
    cases hr : (net n).retryable
    · rw [retryLoop_not_retryable p ctx jit net n f hr] at h
      simp at h
    · by_cases hf : f = 0
      · subst hf; rw [retryLoop_exhaust p ctx jit net n hr] at h; simp at h
      · cases hc : ctx n
        · rw [retryLoop_cancel p ctx jit net n f hr hf hc] at h; simp at h
        · rw [retryLoop_retryable_step p ctx jit net n f hr hf hc] at h
          simp only [List.length_cons] at h
          match i with
          | 0 => simpa using hc
          | j + 1 =>
            have hj : j < (retryLoop p ctx jit net (n + 1) f).2.length := by omega
            have := ih (n + 1) j hj
            have heq : n + 1 + j = n + (j + 1) := by omega
            rwa [heq] at this

theorem retryLoop_sleeps_val (p : RetryPolicy) (ctx : Nat → Bool) (jit : Nat → Nat)
    (net : Nat → Outcome) :
    ∀ f n i, i < (retryLoop p ctx jit net n f).2.length →
      (retryLoop p ctx jit net n f).2.getD i 0 = backOffDelay p (n + i) + jit (n + i) := by
  intro f
  induction f with
  | zero => intro n i h; simp [retryLoop] at h
  | succ f ih =>
    intro n i h
    cases hr : (net n).retryable
    · rw [retryLoop_not_retryable p ctx jit net n f hr] at h
      simp at h
    · by_cases hf : f = 0
      · subst hf; rw [retryLoop_exhaust p ctx jit net n hr] at h; simp at h
      · cases hc : ctx n
        · rw [retryLoop_cancel p ctx jit net n f hr hf hc] at h; simp at h
        · rw [retryLoop_retryable_step p ctx jit net n f hr hf hc] at h ⊢
          simp only [List.length_cons] at h
          match i with
          | 0 => simp
          | j + 1 =>
            have hj : j < (retryLoop p ctx jit net (n + 1) f).2.length := by omega
            have := ih (n + 1) j hj
            have heq : n + 1 + j = n + (j + 1) := by omega
            rw [heq] at this
            simpa using this

/-- Whenever an attempt ran, was retryable, budget remained and the
context was alive, the next attempt also ran. -/
theorem retryLoop_continues (p : RetryPolicy) (ctx : Nat → Bool) (jit : Nat → Nat)
    (net : Nat → Outcome) :
    ∀ f n i, i ≤ (retryLoop p ctx jit net n f).2.length →
      (net (n + i)).retryable = true → i + 1 < f → ctx (n + i) = true →
      i < (retryLoop p ctx jit net n f).2.length := by
  intro f
  induction f with
  | zero => intro n i _ _ h2 _; omega
  | succ f ih =>
    intro n i h1 hret h2 h3
    cases hr : (net n).retryable
    · rw [retryLoop_not_retryable p ctx jit net n f hr] at h1 ⊢
      simp at h1
      subst h1
      simp at hret
      rw [hret] at hr
      simp at hr
    · by_cases hf : f = 0
      · omega
      · cases hc : ctx n
        · rw [retryLoop_cancel p ctx jit net n f hr hf hc] at h1 ⊢
          simp at h1
          subst h1
          simp at h3
          rw [h3] at hc
          simp at hc
        · rw [retryLoop_retryable_step p ctx jit net n f hr hf hc] at h1 ⊢
          simp only [List.length_cons] at h1 ⊢
          match i with
          | 0 => omega
          | j + 1 =>
            have heq : n + (j + 1) = n + 1 + j := by omega
            rw [heq] at hret h3
            have := ih (n + 1) j (by omega) hret (by omega) h3
            omega

theorem Check_valid (c : Client) (ctx : Nat → Bool) (jit : Nat → Nat)
    (net : Nat → Outcome) (parse : String → Option CheckResponse)
    (prURL user : String) (t : Time)
    (h1 : prURL ≠ "") (h2 : user ≠ "") (h3 : t.isZero = false) :
    c.Check ctx jit net parse prURL user t =
      (checkFinish parse (doWithRetry ctx jit net).1,
       mkTrace (c.buildCheckRequest { url := prURL, updatedAt := t, user := user })
         (doWithRetry ctx jit net).2) := by
  simp [Client.Check, h1, h2, h3]

theorem CurrentUser_token (c : Client) (ctx : Nat → Bool) (jit : Nat → Nat)
    (net : Nat → Outcome) (parseLogin : String → Option String)
    (h : c.authToken ≠ "") :
    c.CurrentUser ctx jit net parseLogin =
      (userFinish parseLogin (doWithRetry ctx jit net).1,
       mkTrace c.buildUserRequest (doWithRetry ctx jit net).2) := by
  simp [Client.CurrentUser, h]

/-- C3: Check with an empty PR URL, an empty user, or a zero updatedAt
fails with an invalid-argument error before any HTTP request: no
request object is built and nothing is sent. -/
theorem check_invalid_argument_no_network (c : Client) (ctx : Nat → Bool) (jit : Nat → Nat)
    (net : Nat → Outcome) (parse : String → Option CheckResponse)
    (prURL user : String) (t : Time)
    (h : prURL = "" ∨ user = "" ∨ t.isZero = true) :
    (∃ msg, (c.Check ctx jit net parse prURL user t).1 = .error (.invalidArgument msg)) ∧
    (c.Check ctx jit net parse prURL user t).2.built = none ∧
    (c.Check ctx jit net parse prURL user t).2.sent = [] := by
  by_cases hp : prURL = ""
  · simp [Client.Check, hp, emptyTrace]
  · by_cases hu : user = ""
    · simp [Client.Check, hp, hu, emptyTrace]
    · have ht : t.isZero = true := by tauto
      simp [Client.Check, hp, hu, ht, emptyTrace]

/-- C5: for valid inputs Check builds exactly one logical JSON POST to
baseURL/v1/validate whose body round-trips url, updated_at and user,
with Content-Type, User-Agent and Accept headers, an Authorization
header exactly when a token is configured and Cache-Control: no-cache
exactly when cache bypass is enabled; every physical send is that one
request. -/
theorem check_builds_single_post (c : Client) (ctx : Nat → Bool) (jit : Nat → Nat)
    (net : Nat → Outcome) (parse : String → Option CheckResponse)
    (prURL user : String) (t : Time)
    (h1 : prURL ≠ "") (h2 : user ≠ "") (h3 : t.isZero = false) :
    ∃ req, (c.Check ctx jit net parse prURL user t).2.built = some req ∧
      req.method = "POST" ∧
      req.url = c.baseURL ++ "/v1/validate" ∧
      req.contentType = some "application/json" ∧
      req.userAgentHeader = some userAgent ∧
      req.accept = some "application/json" ∧
      (c.authToken ≠ "" → req.authorization = some ("Bearer " ++ c.authToken)) ∧
      (c.authToken = "" → req.authorization = none) ∧
      (c.noCache = true → req.cacheControl = some "no-cache") ∧
      (c.noCache = false → req.cacheControl = none) ∧
      req.body = some (encodeCheckRequest { url := prURL, updatedAt := t, user := user }) ∧
      decodeCheckRequest (encodeCheckRequest { url := prURL, updatedAt := t, user := user }) =
        some { url := prURL, updatedAt := t, user := user } ∧
      (c.Check ctx jit net parse prURL user t).2.sent ≠ [] ∧
      ∀ r ∈ (c.Check ctx jit net parse prURL user t).2.sent, r = req := by
  rw [Check_valid c ctx jit net parse prURL user t h1 h2 h3]
  refine ⟨_, rfl, rfl, rfl, rfl, rfl, rfl, ?_, ?_, ?_, ?_, rfl, rfl, ?_, ?_⟩
  · intro h
    simp [Client.buildCheckRequest, h]
  · intro h
    simp [Client.buildCheckRequest, h]
  · intro h
    simp [Client.buildCheckRequest, h]
  · intro h
    simp [Client.buildCheckRequest, h]
  · simp [mkTrace]
  · intro r hr
    exact List.eq_of_mem_replicate hr
/-- C1: during Check's retry loop an attempt is followed by another
exactly when its outcome was retryable (network error, status at least
500, or 429) and budget and context allow; a non-retryable first
outcome ends the loop after one attempt, and a non-200 such response
makes Check fail with the remote-rejection error. -/
theorem check_retry_condition (c : Client) (ctx : Nat → Bool) (jit : Nat → Nat)
    (net : Nat → Outcome) (parse : String → Option CheckResponse)
    (prURL user : String) (t : Time)
    (h1 : prURL ≠ "") (h2 : user ≠ "") (h3 : t.isZero = false) :
    (∀ i, i < (c.Check ctx jit net parse prURL user t).2.sleeps.length →
        (net i).retryable = true) ∧
    (∀ i, i ≤ (c.Check ctx jit net parse prURL user t).2.sleeps.length →
        (net i).retryable = true → i + 1 < retryAttempts → ctx i = true →
        i < (c.Check ctx jit net parse prURL user t).2.sleeps.length) ∧
    ((net 0).retryable = false →
      (c.Check ctx jit net parse prURL user t).2.sleeps = [] ∧
      (c.Check ctx jit net parse prURL user t).2.sent.length = 1 ∧
      ∀ s b, net 0 = .resp s b → s ≠ 200 →
        (c.Check ctx jit net parse prURL user t).1 =
          .error (.remoteRejected s (truncateErrorBody b))) := by
  rw [Check_valid c ctx jit net parse prURL user t h1 h2 h3]
  simp only [mkTrace, doWithRetry]
  refine ⟨?_, ?_, ?_⟩
  · intro i hi
    have := retryLoop_sleeps_retryable clientRetryPolicy ctx jit net
      clientRetryPolicy.attempts 0 i hi
    simpa using this
  · intro i hi hret hb hc
    exact retryLoop_continues clientRetryPolicy ctx jit net
      clientRetryPolicy.attempts 0 i hi (by simpa using hret) hb (by simpa using hc)
  · intro hnr
    have h4 : clientRetryPolicy.attempts = 3 + 1 := rfl
    rw [h4, retryLoop_not_retryable clientRetryPolicy ctx jit net 0 3 hnr]
    refine ⟨rfl, rfl, ?_⟩
    intro s b hb hs
    rw [hb]
    simp [checkFinish, checkDecode, hs]

/-- C2: Check and CurrentUser run the same retry schedule: at most 4
total attempts, the delay before the n-th retry is
min(100ms * 2^n, 5s) plus the drawn jitter (at most 300ms more when the
jitter oracle respects MaxJitter), and a context observed cancelled
after attempt k stops the sequence there. -/
theorem retry_budget_and_backoff (c : Client) (ctx : Nat → Bool) (jit : Nat → Nat)
    (net : Nat → Outcome) (parse : String → Option CheckResponse)
    (parseLogin : String → Option String) (prURL user : String) (t : Time)
    (h1 : prURL ≠ "") (h2 : user ≠ "") (h3 : t.isZero = false) (h4 : c.authToken ≠ "") :
    ∃ sl : List Nat,
      (c.Check ctx jit net parse prURL user t).2.sleeps = sl ∧
      (c.CurrentUser ctx jit net parseLogin).2.sleeps = sl ∧
      sl.length + 1 ≤ retryAttempts ∧
      (∀ i, i < sl.length → sl.getD i 0 = min (100 * 2 ^ i) 5000 + jit i) ∧
      ((∀ n, jit n ≤ 300) → ∀ i, i < sl.length →
        sl.getD i 0 ≤ min (100 * 2 ^ i) 5000 + 300) ∧
      (∀ k, ctx k = false → sl.length ≤ k) := by
  rw [Check_valid c ctx jit net parse prURL user t h1 h2 h3,
    CurrentUser_token c ctx jit net parseLogin h4]
  refine ⟨(doWithRetry ctx jit net).2, rfl, rfl, ?_, ?_, ?_, ?_⟩
  · have := retryLoop_sleeps_length clientRetryPolicy ctx jit net clientRetryPolicy.attempts 0
    have h5 : clientRetryPolicy.attempts = retryAttempts := rfl
    have h6 : retryAttempts = 4 := rfl
    simp only [doWithRetry]
    omega
  · intro i hi
    have := retryLoop_sleeps_val clientRetryPolicy ctx jit net
      clientRetryPolicy.attempts 0 i (by simpa [doWithRetry] using hi)
    simpa [doWithRetry, backOffDelay, clientRetryPolicy] using this
  · intro hj i hi
    have := retryLoop_sleeps_val clientRetryPolicy ctx jit net
      clientRetryPolicy.attempts 0 i (by simpa [doWithRetry] using hi)
    have hb := hj i
    simp only [doWithRetry]
    rw [this]
    simp [backOffDelay, clientRetryPolicy]
    omega
  · intro k hk
    by_contra hlt
    push_neg at hlt
    have := retryLoop_sleeps_ctx clientRetryPolicy ctx jit net
      clientRetryPolicy.attempts 0 k (by simpa [doWithRetry] using hlt)
    simp only [Nat.zero_add] at this
    rw [hk] at this
    simp at this
/-- C4: a non-200 response reaching Check's decoder yields the
remote-rejection error carrying the status and the excerpt; the excerpt
is the whole body when it has at most 500 runes, and otherwise its
first 500 runes followed by the "... (truncated)" marker; the excerpt
head is a rune-boundary prefix of the body of at most 500 runes. -/
theorem check_error_body_truncation (c : Client) (ctx : Nat → Bool) (jit : Nat → Nat)
    (net : Nat → Outcome) (parse : String → Option CheckResponse)
    (prURL user : String) (t : Time) (s : Nat) (b : String) (sl : List Nat)
    (h1 : prURL ≠ "") (h2 : user ≠ "") (h3 : t.isZero = false)
    (hr : doWithRetry ctx jit net = (.ok s b, sl)) (hs : s ≠ 200) :
    (c.Check ctx jit net parse prURL user t).1 =
      .error (.remoteRejected s (truncateErrorBody b)) ∧
    (b.data.length ≤ 500 → truncateErrorBody b = b) ∧
    (500 < b.data.length →
      truncateErrorBody b = takeRunes 500 b ++ "... (truncated)") ∧
    (takeRunes 500 b).data.length ≤ 500 ∧
    b.data = (takeRunes 500 b).data ++ b.data.drop 500 := by
  refine ⟨?_, ?_, ?_, ?_, ?_⟩
  · rw [Check_valid c ctx jit net parse prURL user t h1 h2 h3, hr]
    simp [checkFinish, checkDecode, hs]
  · intro hle
    unfold truncateErrorBody
    have he : errorMaxLength = 500 := rfl
    rw [he]
    by_cases hg : goLen b > 500
    · rw [if_pos hg, if_neg (by omega)]
    · rw [if_neg hg]
  · intro hgt
    have hbytes : 500 < goLen b := lt_of_lt_of_le hgt (length_le_goLen b)
    unfold truncateErrorBody
    have he : errorMaxLength = 500 := rfl
    rw [he, if_pos hbytes, if_pos hgt]
  · simp [takeRunes]
  · simp [takeRunes]

/-- The per-rune map as the claim words it: newline, carriage return
and tab become two-character escapes; other code points below 32 and
DEL are dropped; everything else is kept. -/
def specEscape (r : Char) : String :=
  if r = '\n' then "\\n"
  else if r = '\r' then "\\r"
  else if r = '\t' then "\\t"
  else if r.toNat < 32 ∨ r.toNat = 127 then ""
  else String.mk [r]

/-- The claim-side restatement of sanitizeForLog: escape the first 100
runes and append the marker exactly when the input had more. -/
def joinEscapes : List Char → String
  | [] => ""
  | r :: rest => specEscape r ++ joinEscapes rest

def sanitizeSpec (s : String) : String :=
  joinEscapes (s.data.take 100) ++ (if 100 < s.data.length then "..." else "")

theorem escapeRune_eq_specEscape (r : Char) : escapeRune r = specEscape r := by
  unfold escapeRune specEscape
  have hd : asciiDEL = 127 := rfl
  by_cases hn : r = '\n'
  · simp [hn]
  · by_cases hcr : r = '\r'
    · simp [hcr]
    · by_cases ht : r = '\t'
      · simp [ht]
      · simp [hn, hcr, ht, hd]
        by_cases hk : 32 ≤ r.toNat ∧ r.toNat ≠ 127
        · rw [if_pos hk, if_neg (by omega)]
        · rw [if_neg hk, if_pos (by omega)]

theorem foldl_escape_eq_joinEscapes (l : List Char) :
    ∀ acc : String, l.foldl (fun a r => a ++ escapeRune r) acc = acc ++ joinEscapes l := by
  induction l with
  | nil => intro acc; simp [joinEscapes]
  | cons r rest ih =>
    intro acc
    simp only [List.foldl_cons, joinEscapes]
    rw [ih, escapeRune_eq_specEscape, String.append_assoc]
theorem mem_escapeRune_bounds (r : Char) (c : Char) (h : c ∈ (escapeRune r).data) :
    32 ≤ c.toNat ∧ c.toNat ≠ 127 := by
  unfold escapeRune at h
  by_cases hn : r == '\n'
  · rw [if_pos hn] at h
    simp at h
    rcases h with rfl | rfl <;> decide
  · rw [if_neg (by simpa using hn)] at h
    by_cases hcr : r == '\r'
    · rw [if_pos hcr] at h
      simp at h
      rcases h with rfl | rfl <;> decide
    · rw [if_neg (by simpa using hcr)] at h
      by_cases ht : r == '\t'
      · rw [if_pos ht] at h
        simp at h
        rcases h with rfl | rfl <;> decide
      · rw [if_neg (by simpa using ht)] at h
        by_cases hk : 32 ≤ r.toNat ∧ r.toNat ≠ asciiDEL
        · rw [if_pos hk] at h
          simp at h
          subst h
          exact hk
        · rw [if_neg hk] at h
          simp at h

theorem mem_joinEscapes_bounds :
    ∀ (l : List Char) (c : Char), c ∈ (joinEscapes l).data →
      32 ≤ c.toNat ∧ c.toNat ≠ 127 := by
  intro l
  induction l with
  | nil => intro c h; simp [joinEscapes] at h
  | cons r rest ih =>
    intro c h
    simp only [joinEscapes, String.data_append, List.mem_append] at h
    rcases h with h | h
    · rw [← escapeRune_eq_specEscape] at h
      exact mem_escapeRune_bounds r c h
    · exact ih c h

theorem takeRunes_data (n : Nat) (s : String) : (takeRunes n s).data = s.data.take n := rfl

theorem empty_append_str (x : String) : "" ++ x = x := by
  apply String.ext
  simp [String.data_append]

/-- C6: sanitizeForLog equals its claim-side restatement (escape the
first 100 runes, marker exactly when the input had more than 100
runes), and its output contains no control character: every output
code point is at least 32 and is not DEL. -/
theorem sanitizeForLog_claim (s : String) :
    sanitizeForLog s = sanitizeSpec s ∧
    ∀ c ∈ (sanitizeForLog s).data, 32 ≤ c.toNat ∧ c.toNat ≠ 127 := by
  have heq : sanitizeForLog s = sanitizeSpec s := by
    unfold sanitizeForLog sanitizeSpec
    have hl : logMaxLength = 100 := rfl
    by_cases hlen : 100 < s.data.length
    · have hg : 100 < goLen s := lt_of_lt_of_le hlen (length_le_goLen s)
      rw [hl, if_pos hg, if_pos hlen, if_pos hlen]
      simp only [takeRunes_data]
      rw [foldl_escape_eq_joinEscapes, empty_append_str]
      simp
    · rw [hl, if_neg hlen, ite_self]
      simp only [foldl_escape_eq_joinEscapes, empty_append_str]
      rw [List.take_of_length_le (by omega), if_neg hlen]
      simp
  refine ⟨heq, ?_⟩
  intro c hc
  rw [heq] at hc
  unfold sanitizeSpec at hc
  simp only [String.data_append, List.mem_append] at hc
  rcases hc with hc | hc
  · exact mem_joinEscapes_bounds _ c hc
  · by_cases hm : 100 < s.data.length
    · rw [if_pos hm] at hc
      simp at hc
      subst hc
      decide
    · rw [if_neg hm] at hc
      simp at hc
/-- C7 counterexample: a base URL with an http(s) scheme but an empty
host is accepted by NewClient in the latest revision (the host check
exists only in an earlier revision): NewClient "https://" succeeds. -/
theorem newClient_hostless_accepted :
    urlParse "https://" = .ok { scheme := "https", host := "" } ∧
    NewClient "https://" =
      .ok { baseURL := "https:", authToken := "", noCache := false,
            logger := some Logger.discard } :=
  ⟨rfl, rfl⟩

/-- C7 (amended): NewClient fails exactly for an empty base URL, an
unparseable URL, or a scheme other than http/https (the host is not
checked); every accepted URL is stored with trailing slashes stripped;
NewClient "" and NewClient "ftp://x" fail while NewClient "https://x/"
stores "https://x". -/
theorem newClient_validation (s : String) :
    NewClient "" = .error "base URL cannot be empty" ∧
    NewClient "ftp://x" = .error "base URL must use http or https" ∧
    NewClient "https://x/" =
      .ok { baseURL := "https://x", authToken := "", noCache := false,
            logger := some Logger.discard } ∧
    (∀ c, NewClient s = .ok c →
      s ≠ "" ∧ ∃ u, urlParse s = .ok u ∧ (u.scheme = "http" ∨ u.scheme = "https") ∧
        c.baseURL = trimRightSlash s) ∧
    (s ≠ "" → ∀ u, urlParse s = .ok u → (u.scheme = "http" ∨ u.scheme = "https") →
      ∃ c, NewClient s = .ok c ∧ c.baseURL = trimRightSlash s) := by
  refine ⟨rfl, rfl, rfl, ?_, ?_⟩
  · intro c h
    unfold NewClient at h
    by_cases he : s = ""
    · rw [if_pos (by simpa using he)] at h
      exact absurd h (by simp)
    · rw [if_neg (by simpa using he)] at h
      rcases hp : urlParse s with e | u
      · rw [hp] at h
        exact absurd h (by simp)
      · rw [hp] at h
        dsimp only at h
        by_cases hs : (u.scheme != "http" && u.scheme != "https") = true
        · rw [if_pos hs] at h
          exact absurd h (by simp)
        · rw [if_neg hs] at h
          simp only [Except.ok.injEq] at h
          subst h
          refine ⟨he, u, rfl, ?_, rfl⟩
          simp only [Bool.and_eq_true, bne_iff_ne, ne_eq, not_and_or, not_not] at hs
          tauto
  · intro he u hu hs
    unfold NewClient
    rw [if_neg (by simpa using he), hu]
    dsimp only
    rw [if_neg (by rcases hs with h | h <;> simp [h])]
    exact ⟨_, rfl, rfl⟩

/-- A 501-character body used to exhibit CurrentUser's untruncated
error reporting. -/
def longBody : String := String.mk (List.replicate 501 'a')

/-- A configured client used for concrete runs. -/
def tokenClient : Client :=
  { baseURL := "https://x", authToken := "tok", noCache := false,
    logger := some Logger.discard }

set_option maxRecDepth 4000 in
/-- C8 counterexample: a 404 identity response with a 501-character
body makes CurrentUser fail with the full body in the error, not a
500-character excerpt with a truncation marker. -/
theorem currentUser_no_truncation :
    (tokenClient.CurrentUser (fun _ => true) (fun _ => 0)
      (fun _ => .resp 404 longBody) (fun _ => none)).1 =
      .error (.remoteRejected 404 longBody) ∧
    500 < longBody.data.length ∧
    truncateErrorBody longBody ≠ longBody := by
  refine ⟨?_, by decide, ?_⟩
  · rw [CurrentUser_token tokenClient _ _ _ _ (by decide)]
    have h4 : clientRetryPolicy.attempts = 3 + 1 := rfl
    have hnr : ((fun _ : Nat => Outcome.resp 404 longBody) 0).retryable = false := rfl
    simp only [doWithRetry, h4]
    rw [retryLoop_not_retryable clientRetryPolicy _ _ _ 0 3 hnr]
    dsimp only
    simp [userFinish, userDecode]
  · decide

/-- C8 (amended): CurrentUser reports a non-200 identity response with
the status code and the body exactly as read, with no 500-character
excerpt truncation. -/
theorem currentUser_error_full_body (c : Client) (ctx : Nat → Bool) (jit : Nat → Nat)
    (net : Nat → Outcome) (parseLogin : String → Option String)
    (s : Nat) (b : String) (sl : List Nat)
    (h : c.authToken ≠ "") (hr : doWithRetry ctx jit net = (.ok s b, sl)) (hs : s ≠ 200) :
    (c.CurrentUser ctx jit net parseLogin).1 = .error (.remoteRejected s b) := by
  rw [CurrentUser_token c ctx jit net parseLogin h, hr]
  simp [userFinish, userDecode, hs]

/-- C9: CurrentUser without a configured token fails at once with no
request built or sent; a 200 identity response whose login decodes to
the empty string fails with the empty-username error; and a successful
CurrentUser never returns an empty login. -/
theorem currentUser_token_and_empty_login (c : Client) (ctx : Nat → Bool) (jit : Nat → Nat)
    (net : Nat → Outcome) (parseLogin : String → Option String) :
    (c.authToken = "" →
      (c.CurrentUser ctx jit net parseLogin).1 = .error .noToken ∧
      (c.CurrentUser ctx jit net parseLogin).2.built = none ∧
      (c.CurrentUser ctx jit net parseLogin).2.sent = []) ∧
    (∀ b sl, c.authToken ≠ "" → doWithRetry ctx jit net = (.ok 200 b, sl) →
      parseLogin b = some "" →
      (c.CurrentUser ctx jit net parseLogin).1 = .error .emptyUsername) ∧
    (∀ login, (c.CurrentUser ctx jit net parseLogin).1 = .ok login → login ≠ "") := by
  refine ⟨?_, ?_, ?_⟩
  · intro h
    simp [Client.CurrentUser, h, emptyTrace]
  · intro b sl h hr hp
    rw [CurrentUser_token c ctx jit net parseLogin h, hr]
    simp [userFinish, userDecode, hp]
  · intro login hl
    by_cases h : c.authToken = ""
    · simp [Client.CurrentUser, h] at hl
    · rw [CurrentUser_token c ctx jit net parseLogin h] at hl
      rcases hd : (doWithRetry ctx jit net).1 with ⟨s, b⟩ | ⟨o⟩ | _
      · rw [hd] at hl
        simp only [userFinish, userDecode] at hl
        by_cases hs : (s != 200) = true
        · rw [if_pos hs] at hl
          exact absurd hl (by simp)
        · rw [if_neg hs] at hl
          rcases hp : parseLogin b with _ | lg
          · rw [hp] at hl
            exact absurd hl (by simp)
          · rw [hp] at hl
            dsimp only at hl
            by_cases hlg : (lg == "") = true
            · rw [if_pos hlg] at hl
              exact absurd hl (by simp)
            · rw [if_neg hlg] at hl
              simp only [Except.ok.injEq] at hl
              subst hl
              simpa using hlg
      · rw [hd] at hl
        exact absurd hl (by simp [userFinish])
      · rw [hd] at hl
        exact absurd hl (by simp [userFinish])

theorem NewClient_ok_logger (s : String) (c : Client) (h : NewClient s = .ok c) :
    c.logger = some Logger.discard := by
  unfold NewClient at h
  by_cases he : s = ""
  · rw [if_pos (by simpa using he)] at h
    exact absurd h (by simp)
  · rw [if_neg (by simpa using he)] at h
    rcases hp : urlParse s with e | u
    · rw [hp] at h
      exact absurd h (by simp)
    · rw [hp] at h
      dsimp only at h
      by_cases hs : (u.scheme != "http" && u.scheme != "https") = true
      · rw [if_pos hs] at h
        exact absurd h (by simp)
      · rw [if_neg hs] at h
        simp only [Except.ok.injEq] at h
        subst h
        rfl

theorem foldl_applyOp_logger (ops : List ClientOp) :
    ∀ c : Client, (c.logger).isSome = true → ((ops.foldl applyOp c).logger).isSome = true := by
  induction ops with
  | nil => intro c h; simpa using h
  | cons op rest ih =>
    intro c h
    simp only [List.foldl_cons]
    apply ih
    cases op with
    | setAuthToken tk => simpa [applyOp, Client.SetAuthToken] using h
    | setNoCache b => simpa [applyOp, Client.SetNoCache] using h
    | setLogger l =>
      cases l with
      | none => simpa [applyOp, Client.SetLogger] using h
      | some lg => simp [applyOp, Client.SetLogger]

/-- C10: SetLogger nil leaves the configured logger unchanged, and any
client built by NewClient keeps a non-nil logger through every
sequence of setter calls. -/
theorem client_logger_never_nil (s : String) (c : Client) (h : NewClient s = .ok c) :
    (∀ d : Client, d.SetLogger none = d) ∧
    ∀ ops : List ClientOp, ((ops.foldl applyOp c).logger).isSome = true := by
  refine ⟨fun d => rfl, ?_⟩
  intro ops
  apply foldl_applyOp_logger
  rw [NewClient_ok_logger s c h]
  rfl
/-! ## Witnesses: each hypothesis-bearing claim theorem applied at a
concrete input. -/

theorem check_retry_condition_witness :
    (tokenClient.Check (fun _ => true) (fun _ => 0) (fun _ => .resp 404 "nope")
      (fun _ => none) "https://github.com/o/r/pull/1" "alice" ⟨5⟩).1 =
      .error (.remoteRejected 404 (truncateErrorBody "nope")) :=
  ((check_retry_condition tokenClient (fun _ => true) (fun _ => 0)
      (fun _ => .resp 404 "nope") (fun _ => none) "https://github.com/o/r/pull/1" "alice" ⟨5⟩
      (by decide) (by decide) (by decide)).2.2 (by decide)).2.2 404 "nope" rfl (by decide)

theorem retry_budget_and_backoff_witness :
    ∃ sl : List Nat,
      (tokenClient.Check (fun _ => true) (fun _ => 0) (fun _ => .netErr "down")
        (fun _ => none) "https://github.com/o/r/pull/1" "alice" ⟨5⟩).2.sleeps = sl ∧
      (tokenClient.CurrentUser (fun _ => true) (fun _ => 0) (fun _ => .netErr "down")
        (fun _ => none)).2.sleeps = sl ∧
      sl.length + 1 ≤ retryAttempts ∧
      (∀ i, i < sl.length → sl.getD i 0 = min (100 * 2 ^ i) 5000 + 0) ∧
      ((∀ _n : Nat, (0 : Nat) ≤ 300) → ∀ i, i < sl.length →
        sl.getD i 0 ≤ min (100 * 2 ^ i) 5000 + 300) ∧
      (∀ k, (fun _ => true) k = false → sl.length ≤ k) :=
  retry_budget_and_backoff tokenClient (fun _ => true) (fun _ => 0) (fun _ => .netErr "down")
    (fun _ => none) (fun _ => none) "https://github.com/o/r/pull/1" "alice" ⟨5⟩
    (by decide) (by decide) (by decide) (by decide)

theorem check_invalid_argument_witness :
    (∃ msg, (tokenClient.Check (fun _ => true) (fun _ => 0) (fun _ => .resp 200 "{}")
      (fun _ => none) "" "alice" ⟨5⟩).1 = .error (.invalidArgument msg)) ∧
    (tokenClient.Check (fun _ => true) (fun _ => 0) (fun _ => .resp 200 "{}")
      (fun _ => none) "" "alice" ⟨5⟩).2.built = none ∧
    (tokenClient.Check (fun _ => true) (fun _ => 0) (fun _ => .resp 200 "{}")
      (fun _ => none) "" "alice" ⟨5⟩).2.sent = [] :=
  check_invalid_argument_no_network tokenClient (fun _ => true) (fun _ => 0)
    (fun _ => .resp 200 "{}") (fun _ => none) "" "alice" ⟨5⟩ (Or.inl rfl)

theorem check_error_body_truncation_witness :
    (tokenClient.Check (fun _ => true) (fun _ => 0) (fun _ => .resp 404 "bad")
      (fun _ => none) "https://github.com/o/r/pull/1" "alice" ⟨5⟩).1 =
      .error (.remoteRejected 404 (truncateErrorBody "bad")) ∧
    ("bad".data.length ≤ 500 → truncateErrorBody "bad" = "bad") ∧
    (500 < "bad".data.length →
      truncateErrorBody "bad" = takeRunes 500 "bad" ++ "... (truncated)") ∧
    (takeRunes 500 "bad").data.length ≤ 500 ∧
    "bad".data = (takeRunes 500 "bad").data ++ "bad".data.drop 500 :=
  check_error_body_truncation tokenClient (fun _ => true) (fun _ => 0)
    (fun _ => .resp 404 "bad") (fun _ => none) "https://github.com/o/r/pull/1" "alice" ⟨5⟩
    404 "bad" [] (by decide) (by decide) (by decide) rfl (by decide)

theorem check_builds_single_post_witness :
    ∃ req, (tokenClient.Check (fun _ => true) (fun _ => 0) (fun _ => .resp 200 "{}")
      (fun _ => none) "https://github.com/o/r/pull/1" "alice" ⟨5⟩).2.built = some req ∧
      req.method = "POST" ∧
      req.url = tokenClient.baseURL ++ "/v1/validate" ∧
      req.contentType = some "application/json" ∧
      req.userAgentHeader = some userAgent ∧
      req.accept = some "application/json" ∧
      (tokenClient.authToken ≠ "" →
        req.authorization = some ("Bearer " ++ tokenClient.authToken)) ∧
      (tokenClient.authToken = "" → req.authorization = none) ∧
      (tokenClient.noCache = true → req.cacheControl = some "no-cache") ∧
      (tokenClient.noCache = false → req.cacheControl = none) ∧
      req.body = some (encodeCheckRequest
        { url := "https://github.com/o/r/pull/1", updatedAt := ⟨5⟩, user := "alice" }) ∧
      decodeCheckRequest (encodeCheckRequest
        { url := "https://github.com/o/r/pull/1", updatedAt := ⟨5⟩, user := "alice" }) =
        some { url := "https://github.com/o/r/pull/1", updatedAt := ⟨5⟩, user := "alice" } ∧
      (tokenClient.Check (fun _ => true) (fun _ => 0) (fun _ => .resp 200 "{}")
        (fun _ => none) "https://github.com/o/r/pull/1" "alice" ⟨5⟩).2.sent ≠ [] ∧
      ∀ r ∈ (tokenClient.Check (fun _ => true) (fun _ => 0) (fun _ => .resp 200 "{}")
        (fun _ => none) "https://github.com/o/r/pull/1" "alice" ⟨5⟩).2.sent, r = req :=
  check_builds_single_post tokenClient (fun _ => true) (fun _ => 0) (fun _ => .resp 200 "{}")
    (fun _ => none) "https://github.com/o/r/pull/1" "alice" ⟨5⟩
    (by decide) (by decide) (by decide)

theorem sanitizeForLog_claim_witness :
    sanitizeForLog "a\nb\x01c" = sanitizeSpec "a\nb\x01c" ∧
    ∀ c ∈ (sanitizeForLog "a\nb\x01c").data, 32 ≤ c.toNat ∧ c.toNat ≠ 127 :=
  sanitizeForLog_claim "a\nb\x01c"

theorem newClient_validation_witness :
    NewClient "" = .error "base URL cannot be empty" ∧
    NewClient "ftp://x" = .error "base URL must use http or https" ∧
    NewClient "https://x/" =
      .ok { baseURL := "https://x", authToken := "", noCache := false,
            logger := some Logger.discard } ∧
    (∀ c, NewClient "https://x/" = .ok c →
      "https://x/" ≠ "" ∧ ∃ u, urlParse "https://x/" = .ok u ∧
        (u.scheme = "http" ∨ u.scheme = "https") ∧
        c.baseURL = trimRightSlash "https://x/") ∧
    ("https://x/" ≠ "" → ∀ u, urlParse "https://x/" = .ok u →
      (u.scheme = "http" ∨ u.scheme = "https") →
      ∃ c, NewClient "https://x/" = .ok c ∧ c.baseURL = trimRightSlash "https://x/") :=
  newClient_validation "https://x/"

theorem currentUser_error_full_body_witness :
    (tokenClient.CurrentUser (fun _ => true) (fun _ => 0) (fun _ => .resp 404 "bad")
      (fun _ => none)).1 = .error (.remoteRejected 404 "bad") :=
  currentUser_error_full_body tokenClient (fun _ => true) (fun _ => 0)
    (fun _ => .resp 404 "bad") (fun _ => none) 404 "bad" []
    (by decide) rfl (by decide)

theorem currentUser_empty_login_witness :
    (tokenClient.CurrentUser (fun _ => true) (fun _ => 0) (fun _ => .resp 200 "x")
      (fun _ => some "")).1 = .error .emptyUsername :=
  (currentUser_token_and_empty_login tokenClient (fun _ => true) (fun _ => 0)
    (fun _ => .resp 200 "x") (fun _ => some "")).2.1 "x" [] (by decide) rfl rfl

theorem client_logger_never_nil_witness :
    (∀ d : Client, d.SetLogger none = d) ∧
    ∀ ops : List ClientOp,
      ((ops.foldl applyOp
        { baseURL := "https://x", authToken := "", noCache := false,
          logger := some Logger.discard }).logger).isSome = true :=
  client_logger_never_nil "https://x"
    { baseURL := "https://x", authToken := "", noCache := false,
      logger := some Logger.discard } rfl

end Turnclient
